import Mathlib

/-!
Verification of the trading-signal bot core: signal scoring (signal_engine.py),
exit state machine (exit_tracker.py), equity ledger (marathon.py) and the
technical-analysis math library (ta_compat.py).

Floating-point values of the Python source are modelled as exact rationals (ℚ);
Python machine floats introduce no control-flow differences for the properties
treated here, which are all stated over exact arithmetic.  Wall-clock timestamps
(opened_at, closed_at, started_at) are abstracted away: time-based expiry enters
as an explicit boolean input where the source consults the clock.
-/

namespace TradingBot

/-- Python `int(x)` applied to a real value: truncation toward zero. -/
def pyTrunc (q : ℚ) : ℤ :=
  if 0 ≤ q then ⌊q⌋ else ⌈q⌉

/-- Python `round(x)` for a real value: round-half-to-even (banker's rounding). -/
def roundHalfEven (q : ℚ) : ℤ :=
  if q - ⌊q⌋ < 1/2 then ⌊q⌋
  else if 1/2 < q - ⌊q⌋ then ⌊q⌋ + 1
  else if 2 ∣ ⌊q⌋ then ⌊q⌋ else ⌊q⌋ + 1

/-- Python `round(x, 2)`. -/
def pyRound2 (q : ℚ) : ℚ := (roundHalfEven (q * 100) : ℚ) / 100

/-- Python `round(x, 6)`. -/
def pyRound6 (q : ℚ) : ℚ := (roundHalfEven (q * 1000000) : ℚ) / 1000000

/-- indicators.Direction. -/
inductive Direction
  | LONG
  | SHORT
  | NEUTRAL
  deriving DecidableEq, Repr

/-- indicators.IndicatorResult.  The `name` and `description` string fields of the
source dataclass are omitted: they are display-only and never read by the engine. -/
structure IndicatorResult where
  direction : Direction
  confidence : ℚ
  deriving DecidableEq, Repr

/- ── config.py constants used by the embedded code (source names in comments) ── -/

/-- config.SIGNAL_THRESHOLD = 70. -/
def signalThreshold : ℤ := 70

/-- config.CONFIRMATION_MULTIPLIER = 1.3. -/
def confirmationMultiplier : ℚ := 13/10

/-- config.ATR_SL_MULTIPLIER = 1.5. -/
def atrSlMultiplier : ℚ := 3/2

/-- config.TP1_MULTIPLIER = 1.5. -/
def tp1Multiplier : ℚ := 3/2

/-- config.TP2_MULTIPLIER = 3.0. -/
def tp2Multiplier : ℚ := 3

/-- config.VOLUME_MULTIPLIER = 1.5. -/
def volumeMultiplier : ℚ := 3/2

/-- config.VOLUME_SPIKE_MULTIPLIER = 2.5. -/
def volumeSpikeMultiplier : ℚ := 5/2

/-- config.VOLUME_MIN_RATIO = 1.0. -/
def volumeMinRatio : ℚ := 1

/-- config.POSITION_SIZE_MODERATE = 5.0. -/
def positionSizeModerate : ℚ := 5

/-- config.POSITION_SIZE_STRONG = 10.0. -/
def positionSizeStrong : ℚ := 10

/-- config.BTC_DROP_THRESHOLD_PCT = -1.0. -/
def btcDropThresholdPct : ℚ := -1

/-- config.BTC_PUMP_THRESHOLD_PCT = 1.0. -/
def btcPumpThresholdPct : ℚ := 1

/- ── signal_engine.SignalEngine._check_volume_quality ── -/

/-- The quality label returned by `_check_volume_quality` (the source formats a
string; only its identity matters to the engine, so it is modelled as a tag). -/
inductive VolumeQuality
  | insufficientData
  | zeroVolume
  | dust
  | spike
  | aboveAverage
  | normal
  | weak
  deriving DecidableEq, Repr

/-- `float(df["volume"].iloc[-20:].mean())`: mean of the trailing 20 entries
(called only when at least 20 entries exist). -/
def avgVol20 (volumes : List ℚ) : ℚ :=
  ((volumes.drop (volumes.length - 20)).sum) / 20

/-- signal_engine.SignalEngine._check_volume_quality, over the volume column of
the primary dataframe (the `df is None` guard is subsumed by the caller, which
only reaches this with a dataframe in hand; an absent dataframe is the empty
list here). -/
def checkVolumeQuality (volumes : List ℚ) : VolumeQuality × ℚ :=
  if volumes.length < 20 then (.insufficientData, 0)
  else
    let current_vol := (volumes.getLast?).getD 0
    let avg_vol := avgVol20 volumes
    if avg_vol = 0 then (.zeroVolume, 0)
    else
      let ratio := current_vol / avg_vol
      if ratio < volumeMinRatio then (.dust, -10)
      else if volumeSpikeMultiplier ≤ ratio then (.spike, 8)
      else if volumeMultiplier ≤ ratio then (.aboveAverage, 5)
      else if volumeMinRatio ≤ ratio then (.normal, 0)
      else (.weak, -5)

/- ── ta_compat.py ── -/

/-- Recursion of `Series.ewm(span=length, adjust=False).mean()`:
next = (1-α)·prev + α·x. -/
def emaGo (alpha : ℚ) : ℚ → List ℚ → List ℚ
  | _, [] => []
  | prev, x :: rest =>
    let next := (1 - alpha) * prev + alpha * x
    next :: emaGo alpha next rest

/-- ta_compat.ema: `series.ewm(span=length, adjust=False).mean()`, seed-free
exponential smoothing with α = 2/(length+1) started from the first element. -/
def ema (series : List ℚ) (length : ℕ) : List ℚ :=
  match series with
  | [] => []
  | x :: rest => x :: emaGo (2 / ((length : ℚ) + 1)) x rest

/-- `Series.ewm(alpha, min_periods, adjust=False).mean()` over a series with
missing values (`none` = NaN).  State: running mean (none until the first
observation) and the count of non-missing observations so far; an output is
emitted (`some`) once the count reaches `min_periods`.  In the source the only
missing input is the leading NaN produced by `diff()`, so the pandas
`ignore_na` weighting subtlety for interior NaNs never arises. -/
def ewmMeanGo (alpha : ℚ) (min_periods : ℕ) :
    Option ℚ → ℕ → List (Option ℚ) → List (Option ℚ)
  | _, _, [] => []
  | mean, count, none :: rest =>
    (if min_periods ≤ count then mean else none) ::
      ewmMeanGo alpha min_periods mean count rest
  | none, count, some x :: rest =>
    (if min_periods ≤ count + 1 then some x else none) ::
      ewmMeanGo alpha min_periods (some x) (count + 1) rest
  | some m, count, some x :: rest =>
    let m' := (1 - alpha) * m + alpha * x
    (if min_periods ≤ count + 1 then some m' else none) ::
      ewmMeanGo alpha min_periods (some m') (count + 1) rest

/-- `Series.ewm(alpha=a, min_periods=p, adjust=False).mean()`. -/
def ewmMean (alpha : ℚ) (min_periods : ℕ) (xs : List (Option ℚ)) : List (Option ℚ) :=
  ewmMeanGo alpha min_periods none 0 xs

/-- Tail of `Series.diff()`: consecutive differences. -/
def diffGo : ℚ → List ℚ → List (Option ℚ)
  | _, [] => []
  | prev, x :: rest => some (x - prev) :: diffGo x rest

/-- `Series.diff()`: first entry NaN, then consecutive differences. -/
def diffList : List ℚ → List (Option ℚ)
  | [] => []
  | x :: rest => none :: diffGo x rest

/-- ta_compat.rsi.  `delta.clip(lower=0)` is `max d 0`, `-delta.clip(upper=0)`
is `max (-d) 0`; `avg_loss.replace(0, np.nan)` turns a zero average loss into a
missing value, so both the warm-up region and the zero-loss case come out as
`none` (NaN). -/
def rsi (series : List ℚ) (length : ℕ) : List (Option ℚ) :=
  let delta := diffList series
  let gain := delta.map (Option.map (fun d => max d 0))
  let loss := delta.map (Option.map (fun d => max (-d) 0))
  let avg_gain := ewmMean (1 / (length : ℚ)) length gain
  let avg_loss := ewmMean (1 / (length : ℚ)) length loss
  let rs := List.zipWith (fun g l =>
      match g, l with
      | some gv, some lv => if lv = 0 then none else some (gv / lv)
      | _, _ => none) avg_gain avg_loss
  rs.map (Option.map (fun r => 100 - 100 / (1 + r)))

/- ── marathon.py ── -/

/-- marathon.Trade (the `timestamp` string field, a wall-clock reading, is
omitted). -/
structure Trade where
  symbol : String
  direction : String
  entry_price : ℚ
  exit_price : ℚ
  pnl_pct : ℚ
  pnl_usd : ℚ
  position_size_pct : ℚ
  score : ℤ
  balance_before : ℚ
  balance_after : ℚ
  exit_reason : String
  deriving DecidableEq, Repr

/-- marathon.MarathonTracker ledger state (the `started_at` wall-clock string is
omitted). -/
structure MarathonTracker where
  starting_balance : ℚ
  current_balance : ℚ
  trades : List Trade
  deriving DecidableEq, Repr

/-- marathon.MarathonTracker.record_trade: returns the updated tracker and the
appended Trade record.  The rounding in the Trade fields mirrors the source;
`current_balance` itself is updated unrounded. -/
def record_trade (m : MarathonTracker) (symbol direction : String)
    (entry_price exit_price pnl_pct position_size_pct : ℚ) (score : ℤ)
    (exit_reason : String) : MarathonTracker × Trade :=
  let balance_before := m.current_balance
  let position_usd := m.current_balance * (position_size_pct / 100)
  let pnl_usd := position_usd * (pnl_pct / 100)
  let new_balance := m.current_balance + pnl_usd
  let t : Trade :=
    { symbol := symbol
      direction := direction
      entry_price := entry_price
      exit_price := exit_price
      pnl_pct := pyRound2 pnl_pct
      pnl_usd := pyRound2 pnl_usd
      position_size_pct := position_size_pct
      score := score
      balance_before := pyRound2 balance_before
      balance_after := pyRound2 new_balance
      exit_reason := exit_reason }
  ({ m with current_balance := new_balance, trades := m.trades ++ [t] }, t)

/-- The structured snapshot written by MarathonTracker._save (JSON object with
keys starting_balance, current_balance, started_at, trades; the wall-clock
started_at is omitted as elsewhere). -/
structure MarathonSnapshot where
  starting_balance : ℚ
  current_balance : ℚ
  trades : List Trade
  deriving DecidableEq, Repr

/-- marathon.MarathonTracker._save: the data written to disk. -/
def saveSnapshot (m : MarathonTracker) : MarathonSnapshot :=
  { starting_balance := m.starting_balance
    current_balance := m.current_balance
    trades := m.trades }

/-- marathon.MarathonTracker._load on a fresh tracker when a snapshot exists:
every ledger field is overwritten from the snapshot. -/
def loadSnapshot (s : MarathonSnapshot) : MarathonTracker :=
  { starting_balance := s.starting_balance
    current_balance := s.current_balance
    trades := s.trades }

/- ── exit_tracker.py ── -/

/-- exit_tracker.ExitReason. -/
inductive ExitReason
  | STOP_LOSS
  | TAKE_PROFIT_1
  | TAKE_PROFIT_2
  | TIME_EXIT
  | MANUAL
  deriving DecidableEq, Repr

/-- exit_tracker.PositionStatus. -/
inductive PositionStatus
  | OPEN
  | TP1_HIT
  | CLOSED
  deriving DecidableEq, Repr

/-- exit_tracker.TrackedPosition.  `opened_at`/`closed_at` wall-clock fields are
omitted; time expiry is passed to the exit check explicitly. -/
structure TrackedPosition where
  symbol : String
  direction : String
  entry_price : ℚ
  stop_loss : ℚ
  take_profit_1 : ℚ
  take_profit_2 : ℚ
  score : ℤ
  position_size_pct : ℚ
  status : PositionStatus := .OPEN
  exit_reason : Option ExitReason := none
  exit_price : Option ℚ := none
  deriving DecidableEq, Repr

/-- exit_tracker.TrackedPosition.calc_pnl_pct. -/
def calc_pnl_pct (pos : TrackedPosition) (current_price : ℚ) : ℚ :=
  if pos.direction = "LONG" then
    (current_price - pos.entry_price) / pos.entry_price * 100
  else
    (pos.entry_price - current_price) / pos.entry_price * 100

/-- exit_tracker.ExitAlert (the formatted Telegram `message` string is omitted). -/
structure ExitAlert where
  position : TrackedPosition
  reason : ExitReason
  current_price : ℚ
  pnl_pct : ℚ
  deriving DecidableEq, Repr

/-- exit_tracker.ExitTracker._close_position: mark closed and build the alert.
The caller appends the closed position to history. -/
def closePosition (pos : TrackedPosition) (reason : ExitReason)
    (current_price pnl : ℚ) : TrackedPosition × ExitAlert :=
  let pos' := { pos with
    status := .CLOSED
    exit_reason := some reason
    exit_price := some current_price }
  (pos', { position := pos', reason := reason, current_price := current_price,
           pnl_pct := pnl })

/-- exit_tracker.ExitTracker._partial_tp: mark TP1 hit, move the stop loss to
breakeven (the entry price) and build the alert.  The position stays live. -/
def takeProfit1Hit (pos : TrackedPosition) (current_price pnl : ℚ) :
    TrackedPosition × ExitAlert :=
  let pos' := { pos with status := .TP1_HIT, stop_loss := pos.entry_price }
  (pos', { position := pos', reason := .TAKE_PROFIT_1,
           current_price := current_price, pnl_pct := pnl })

/-- One iteration of the `check_exits` loop body for a single non-closed
position whose current price is known: the if/continue cascade of
exit_tracker.py lines 140-178.  `expired` stands for `pos.is_expired`
(a wall-clock reading in the source). -/
def checkOnePosition (pos : TrackedPosition) (current_price : ℚ)
    (expired : Bool) : TrackedPosition × Option ExitAlert :=
  let pnl := calc_pnl_pct pos current_price
  if pos.direction = "LONG" ∧ current_price ≤ pos.stop_loss then
    let r := closePosition pos .STOP_LOSS current_price pnl
    (r.1, some r.2)
  else if pos.direction = "SHORT" ∧ pos.stop_loss ≤ current_price then
    let r := closePosition pos .STOP_LOSS current_price pnl
    (r.1, some r.2)
  else if pos.status = .OPEN ∧ pos.direction = "LONG" ∧
      pos.take_profit_1 ≤ current_price then
    let r := takeProfit1Hit pos current_price pnl
    (r.1, some r.2)
  else if pos.status = .OPEN ∧ pos.direction = "SHORT" ∧
      current_price ≤ pos.take_profit_1 then
    let r := takeProfit1Hit pos current_price pnl
    (r.1, some r.2)
  else if pos.direction = "LONG" ∧ pos.take_profit_2 ≤ current_price then
    let r := closePosition pos .TAKE_PROFIT_2 current_price pnl
    (r.1, some r.2)
  else if pos.direction = "SHORT" ∧ current_price ≤ pos.take_profit_2 then
    let r := closePosition pos .TAKE_PROFIT_2 current_price pnl
    (r.1, some r.2)
  else if expired then
    let r := closePosition pos .TIME_EXIT current_price pnl
    (r.1, some r.2)
  else (pos, none)

/-- exit_tracker.ExitTracker state: `_positions` is a Python dict (String →
TrackedPosition) modelled as an insertion-ordered association list with unique
keys; `_history` is the list of closed positions. -/
structure ExitTrackerState where
  positions : List (String × TrackedPosition)
  history : List TrackedPosition
  deriving DecidableEq, Repr

/-- ExitTracker.__init__. -/
def emptyTracker : ExitTrackerState := { positions := [], history := [] }

/-- exit_tracker.ExitTracker.open_positions. -/
def open_positions (st : ExitTrackerState) : List TrackedPosition :=
  (st.positions.map Prod.snd).filter (fun p => decide (p.status ≠ .CLOSED))

/-- Dict lookup `self._positions.get(sym)`. -/
def lookupPosition (ps : List (String × TrackedPosition)) (sym : String) :
    Option TrackedPosition :=
  (ps.find? (fun e => decide (e.1 = sym))).map Prod.snd

/-- Dict assignment `self._positions[sym] = pos`: replace in place if the key
exists (Python dicts keep the original insertion slot), else append. -/
def upsertPosition : List (String × TrackedPosition) → String → TrackedPosition →
    List (String × TrackedPosition)
  | [], sym, pos => [(sym, pos)]
  | e :: rest, sym, pos =>
    if e.1 = sym then (sym, pos) :: rest
    else e :: upsertPosition rest sym pos

/-- exit_tracker.ExitTracker.add_position: force-close (reason Manual) any
existing non-closed position for the same symbol, appending it to history,
then install the new position. -/
def add_position (st : ExitTrackerState) (position : TrackedPosition) :
    ExitTrackerState :=
  match lookupPosition st.positions position.symbol with
  | some old =>
    if old.status ≠ .CLOSED then
      let old' := { old with status := .CLOSED, exit_reason := some .MANUAL }
      { positions := upsertPosition st.positions position.symbol position
        history := st.history ++ [old'] }
    else
      { positions := upsertPosition st.positions position.symbol position
        history := st.history }
  | none =>
    { positions := st.positions ++ [(position.symbol, position)]
      history := st.history }

/-- The `for symbol, pos in list(self._positions.items())` loop of
`check_exits`: yields the updated entries, the closed positions appended to
history, and the alerts, in iteration order.  `price_getter sym = none` (no
price) and `pos.status == CLOSED` skip the entry. -/
def checkExitsList (price_getter : String → Option ℚ)
    (expiredOf : String → Bool) :
    List (String × TrackedPosition) →
    List (String × TrackedPosition) × List TrackedPosition × List ExitAlert
  | [] => ([], [], [])
  | (sym, pos) :: rest =>
    let r := checkExitsList price_getter expiredOf rest
    if pos.status = .CLOSED then ((sym, pos) :: r.1, r.2.1, r.2.2)
    else
      match price_getter sym with
      | none => ((sym, pos) :: r.1, r.2.1, r.2.2)
      | some current_price =>
        let c := checkOnePosition pos current_price (expiredOf sym)
        let histAdd := if c.1.status = .CLOSED then [c.1] else []
        ((sym, c.1) :: r.1, histAdd ++ r.2.1, c.2.toList ++ r.2.2)

/-- exit_tracker.ExitTracker.check_exits.  `expiredOf` stands for the
wall-clock `pos.is_expired` test for the position tracked under each symbol. -/
def check_exits (st : ExitTrackerState) (price_getter : String → Option ℚ)
    (expiredOf : String → Bool) : ExitTrackerState × List ExitAlert :=
  let r := checkExitsList price_getter expiredOf st.positions
  ({ positions := r.1, history := st.history ++ r.2.1 }, r.2.2)

/-- The tracker states reachable through the public operations. -/
inductive Reachable : ExitTrackerState → Prop
  | init : Reachable emptyTracker
  | add (st : ExitTrackerState) (pos : TrackedPosition) :
      Reachable st → Reachable (add_position st pos)
  | check (st : ExitTrackerState) (pg : String → Option ℚ)
      (ex : String → Bool) : Reachable st → Reachable (check_exits st pg ex).1

/-- Number of non-closed tracked positions (live map and history together)
carrying a given symbol. -/
def nonClosedCount (st : ExitTrackerState) (sym : String) : ℕ :=
  (st.positions.map Prod.snd ++ st.history).countP
    (fun p => decide (p.symbol = sym ∧ p.status ≠ .CLOSED))

/-- Structural well-formedness of the tracker: the association list models a
dict (no duplicate keys, each position stored under its own symbol) and the
history holds only closed positions. -/
def TrackerWf (st : ExitTrackerState) : Prop :=
  (st.positions.map Prod.fst).Nodup ∧
  (∀ e ∈ st.positions, (Prod.snd e).symbol = Prod.fst e) ∧
  (∀ p ∈ st.history, p.status = PositionStatus.CLOSED)

/- ── signal_engine.py ── -/

/-- The strength label of signal_engine.analyze_pair (a formatted string in the
source; only its identity matters). -/
inductive SignalStrength
  | veryStrong
  | strong
  | moderate
  deriving DecidableEq, Repr

/-- signal_engine.Signal.  String-typed display fields
(confirmation_details, btc_filter_info), the indicator lists and the
sr_levels snapshot are omitted: they are pass-through display data. -/
structure Signal where
  symbol : String
  direction : Direction
  score : ℤ
  strength : SignalStrength
  current_price : ℚ
  entry_zone : ℚ × ℚ
  stop_loss : ℚ
  take_profit_1 : ℚ
  take_profit_2 : ℚ
  risk_reward : ℚ
  position_size_pct : ℚ
  confirmation_tf_aligned : Bool
  volume_quality : VolumeQuality
  deriving DecidableEq, Repr

/-- Everything `analyze_pair` reads for one symbol in one cycle: fetched data
summarised by the values the engine actually consumes, and the outputs of the
(abstracted) indicator evaluators.  `primary_results` are the ALL_INDICATORS
outputs on the primary timeframe; `confirm_data` is `none` when the
confirmation fetch returned None, otherwise (bar count, TREND_INDICATORS
outputs); `btc_change_1h` is the cached BTC 1h change; `btc_filter_enabled`
mirrors config.BTC_FILTER_ENABLED (True in config.py). -/
structure PairData where
  symbol : String
  primary_len : ℕ
  primary_results : List IndicatorResult
  btc_filter_enabled : Bool
  btc_change_1h : Option ℚ
  volumes : List ℚ
  confirm_data : Option (ℕ × List IndicatorResult)
  atr_raw : Option ℚ
  last_close : ℚ
  funding_result : IndicatorResult
  oi_result : IndicatorResult
  sr_result : IndicatorResult

/-- Vote counting and the consensus rule (signal_engine.py lines 139-153):
the winning direction must strictly out-vote the opposite one and collect at
least two votes. -/
def consensus (primary_results : List IndicatorResult) :
    Option (Direction × List IndicatorResult) :=
  let long_votes := primary_results.filter (fun r => decide (r.direction = .LONG))
  let short_votes := primary_results.filter (fun r => decide (r.direction = .SHORT))
  if short_votes.length < long_votes.length ∧ 2 ≤ long_votes.length then
    some (.LONG, long_votes)
  else if long_votes.length < short_votes.length ∧ 2 ≤ short_votes.length then
    some (.SHORT, short_votes)
  else none

/-- The BTC market filter applied to a found consensus (signal_engine.py lines
156-162). -/
def btcBlocked (d : PairData) (direction : Direction) : Bool :=
  if d.btc_filter_enabled then
    match d.btc_change_1h with
    | some c =>
      if direction = .LONG ∧ c ≤ btcDropThresholdPct then true
      else if direction = .SHORT ∧ btcPumpThresholdPct ≤ c then true
      else false
    | none => false
  else false

/-- Higher-timeframe confirmation (signal_engine.py lines 176-193): the factor
the base score is multiplied by, and whether the confirmation counted as
aligned. -/
def confirmationFactor (d : PairData) (direction : Direction) : ℚ × Bool :=
  match d.confirm_data with
  | some (clen, results) =>
    if 50 ≤ clen then
      let same := (results.filter (fun r => decide (r.direction = direction))).length
      if 2 ≤ same then (confirmationMultiplier, true)
      else if same = 1 then (11/10, false)
      else (7/10, false)
    else (1, false)
  | none => (1, false)

/-- One additive auxiliary adjustment (funding / open interest /
support-resistance, signal_engine.py lines 206-235): +confidence·plus when
aligned, −confidence·minus when opposed and non-neutral, else 0. -/
def extraAdjust (result : IndicatorResult) (direction : Direction)
    (plus minus : ℚ) : ℚ :=
  if result.direction = direction then result.confidence * plus
  else if result.direction ≠ .NEUTRAL then -(result.confidence * minus)
  else 0

/-- ATR with the fallback of signal_engine.py lines 197-199: 1% of the last
close when ATR is undefined or zero. -/
def effectiveAtr (d : PairData) : ℚ :=
  match d.atr_raw with
  | none => d.last_close * (1/100)
  | some a => if a = 0 then d.last_close * (1/100) else a

/-- The unclamped composite score (signal_engine.py lines 167-235): agreement
ratio × average winning confidence × 100, plus the volume adjustment, times
the confirmation factor, plus the three auxiliary adjustments. -/
def rawScore (d : PairData) (direction : Direction)
    (active_votes : List IndicatorResult) : ℚ :=
  let total_indicators := d.primary_results.length
  let agreement_ratio := (active_votes.length : ℚ) / (total_indicators : ℚ)
  let avg_confidence :=
    (active_votes.map IndicatorResult.confidence).sum / (active_votes.length : ℚ)
  let base0 := agreement_ratio * avg_confidence * 100 + (checkVolumeQuality d.volumes).2
  let base1 := base0 * (confirmationFactor d direction).1
  let base2 := base1 + extraAdjust d.funding_result direction 8 5
  let base3 := base2 + extraAdjust d.oi_result direction 10 5
  base3 + extraAdjust d.sr_result direction 12 15

/-- `final_score = max(0, min(int(base_score), 100))` (signal_engine.py line 238). -/
def finalScore (d : PairData) (direction : Direction)
    (active_votes : List IndicatorResult) : ℤ :=
  max 0 (min (pyTrunc (rawScore d direction active_votes)) 100)

/-- Signal construction once the threshold is passed (signal_engine.py lines
245-295). -/
def mkSignal (d : PairData) (direction : Direction)
    (active_votes : List IndicatorResult) : Signal :=
  let final_score := finalScore d direction active_votes
  let atr := effectiveAtr d
  let current_price := d.last_close
  let position_size_pct :=
    if 90 ≤ final_score then positionSizeStrong else positionSizeModerate
  let entry_low :=
    if direction = .LONG then current_price - atr * (3/10)
    else current_price - atr * (1/10)
  let entry_high :=
    if direction = .LONG then current_price + atr * (1/10)
    else current_price + atr * (3/10)
  let stop_loss :=
    if direction = .LONG then current_price - atr * atrSlMultiplier
    else current_price + atr * atrSlMultiplier
  let take_profit_1 :=
    if direction = .LONG then current_price + atr * tp1Multiplier
    else current_price - atr * tp1Multiplier
  let take_profit_2 :=
    if direction = .LONG then current_price + atr * tp2Multiplier
    else current_price - atr * tp2Multiplier
  let risk := |current_price - stop_loss|
  let reward := |take_profit_2 - current_price|
  let risk_reward := if 0 < risk then reward / risk else 0
  let strength :=
    if 90 ≤ final_score then SignalStrength.veryStrong
    else if 80 ≤ final_score then SignalStrength.strong
    else SignalStrength.moderate
  { symbol := d.symbol
    direction := direction
    score := final_score
    strength := strength
    current_price := current_price
    entry_zone := (pyRound6 entry_low, pyRound6 entry_high)
    stop_loss := pyRound6 stop_loss
    take_profit_1 := pyRound6 take_profit_1
    take_profit_2 := pyRound6 take_profit_2
    risk_reward := pyRound2 risk_reward
    position_size_pct := position_size_pct
    confirmation_tf_aligned := (confirmationFactor d direction).2
    volume_quality := (checkVolumeQuality d.volumes).1 }

/-- signal_engine.SignalEngine.analyze_pair: None on insufficient data, no
consensus, a BTC-filter block, or a sub-threshold score; otherwise the built
Signal. -/
def analyze_pair (d : PairData) : Option Signal :=
  if d.primary_len < 50 then none
  else
    match consensus d.primary_results with
    | none => none
    | some (direction, active_votes) =>
      if btcBlocked d direction then none
      else if finalScore d direction active_votes < signalThreshold then none
      else some (mkSignal d direction active_votes)

/- ── concrete sample data used by witnesses and counterexamples ── -/

/-- Twenty volume bars: 19 bars of volume 1 followed by a current bar of
volume `v` (trailing 20-bar average = (19+v)/20). -/
def c8Volumes (v : ℚ) : List ℚ := List.replicate 19 1 ++ [v]

/-- A Long position whose stop loss (100), TP1 (80) and TP2 (85) are all
breached at once by the price 85: adversarial but legal levels, exercising the
priority of the stop-loss rule. -/
def c2SamplePos : TrackedPosition :=
  { symbol := "X", direction := "LONG", entry_price := 100, stop_loss := 100,
    take_profit_1 := 80, take_profit_2 := 85, score := 80,
    position_size_pct := 5 }

/-- A Long position with entry `e`, ATR `a` and stop loss `sl`:
TP1 = e + 1.5·a and TP2 = e + 3·a, as built by the signal engine. -/
def c3Position (e a sl : ℚ) : TrackedPosition :=
  { symbol := "X", direction := "LONG", entry_price := e, stop_loss := sl,
    take_profit_1 := e + a * tp1Multiplier, take_profit_2 := e + a * tp2Multiplier,
    score := 80, position_size_pct := 5 }

/-- Tracker holding only the position of `c3Position`. -/
def c3State0 (e a sl : ℚ) : ExitTrackerState :=
  { positions := [("X", c3Position e a sl)], history := [] }

/-- First update pass: price = entry. -/
def c3Step1 (e a sl : ℚ) : ExitTrackerState × List ExitAlert :=
  check_exits (c3State0 e a sl) (fun _ => some e) (fun _ => false)

/-- Second update pass: price = entry + 1.5·ATR (= TP1). -/
def c3Step2 (e a sl : ℚ) : ExitTrackerState × List ExitAlert :=
  check_exits (c3Step1 e a sl).1 (fun _ => some (e + a * tp1Multiplier))
    (fun _ => false)

/-- Third update pass: price = entry + 3·ATR (= TP2). -/
def c3Step3 (e a sl : ℚ) : ExitTrackerState × List ExitAlert :=
  check_exits (c3Step2 e a sl).1 (fun _ => some (e + a * tp2Multiplier))
    (fun _ => false)

/-- A strictly rising 15-point series: after the 14-point warm-up the Wilder
average loss at index 14 is exactly 0. -/
def c7Series : List ℚ := [0, 1, 2, 3, 4, 5, 6, 7, 8, 9, 10, 11, 12, 13, 14]

/-- Concrete cycle data for one instrument: three aligned Long evaluators at
full confidence, neutral auxiliary evaluators, no confirmation data and an
empty volume history, yielding a composite score of exactly 100. -/
def sampleData : PairData :=
  { symbol := "BTC/USDT:USDT"
    primary_len := 200
    primary_results := [⟨.LONG, 1⟩, ⟨.LONG, 1⟩, ⟨.LONG, 1⟩]
    btc_filter_enabled := true
    btc_change_1h := none
    volumes := []
    confirm_data := none
    atr_raw := some 2
    last_close := 100
    funding_result := ⟨.NEUTRAL, 0⟩
    oi_result := ⟨.NEUTRAL, 0⟩
    sr_result := ⟨.NEUTRAL, 0⟩ }

/- ────────────────────────────── theorems ────────────────────────────── -/

/-- C5: `record_trade` applies the PnL of a closing trade to the balance held
at the moment of closing: the new balance is exactly
B + B·(f/100)·(p/100) over exact rational arithmetic (compounding), and with
starting balance 46, one trade with size fraction 10 and PnL +20% yields
exactly 46.92. -/
theorem c5RecordTradeCompounds :
    (∀ (m : MarathonTracker) (sym dir : String) (ep xp p f : ℚ) (sc : ℤ)
        (r : String),
      (record_trade m sym dir ep xp p f sc r).1.current_balance
        = m.current_balance + m.current_balance * (f / 100) * (p / 100)) ∧
    (record_trade ⟨46, 46, []⟩ "BTCUSDT" "LONG" 100 102 20 10 90
        "TP2").1.current_balance = 4692 / 100 := by
  constructor
  · intro m sym dir ep xp p f sc r
    rfl
  · show (46 : ℚ) + 46 * (10 / 100) * (20 / 100) = 4692 / 100
    norm_num

/-- C6: persisting the ledger (`_save`) and loading the snapshot into a fresh
tracker (`_load`) with zero new trades reproduces the identical current
balance, starting balance and trade count. -/
theorem c6SaveLoadRoundTrip :
    ∀ m : MarathonTracker,
      (loadSnapshot (saveSnapshot m)).current_balance = m.current_balance ∧
      (loadSnapshot (saveSnapshot m)).starting_balance = m.starting_balance ∧
      (loadSnapshot (saveSnapshot m)).trades.length = m.trades.length :=
  fun _ => ⟨rfl, rfl, rfl⟩

/-- C8 counterexample: the weak −5 adjustment is unreachable.  The first branch
already catches every ratio below VOLUME_MIN_RATIO (= 1.0), so the final
`else` of `_check_volume_quality` (ratio < 1.0 again) can never fire: no
volume series makes the function return −5. -/
theorem c8Counterexample :
    ¬ ∃ volumes : List ℚ, (checkVolumeQuality volumes).2 = -5 := by
  rintro ⟨volumes, h⟩
  simp only [checkVolumeQuality] at h
  split_ifs at h with h1 h2 h3 h4 h5 h6
  · norm_num at h
  · norm_num at h
  · norm_num at h
  · norm_num at h
  · norm_num at h
  · norm_num at h
  · exact h3 (not_le.mp h6)

/-- C8 (amended): with at least 20 bars and a non-zero trailing average, the
volume adjustment is always one of {−10, +8, +5, 0}; each of these four values
is attained (dust, spike, above-average, neutral).  The −5 weak penalty of the
source's final branch is dead code (see the counterexample). -/
theorem c8AdjustmentRanges :
    (∀ volumes : List ℚ, 20 ≤ volumes.length → avgVol20 volumes ≠ 0 →
      (checkVolumeQuality volumes).2 = -10 ∨ (checkVolumeQuality volumes).2 = 8 ∨
        (checkVolumeQuality volumes).2 = 5 ∨ (checkVolumeQuality volumes).2 = 0) ∧
    (checkVolumeQuality (c8Volumes 0)).2 = -10 ∧
    (checkVolumeQuality (c8Volumes 100)).2 = 8 ∧
    (checkVolumeQuality (c8Volumes 2)).2 = 5 ∧
    (checkVolumeQuality (c8Volumes 1)).2 = 0 := by
  refine ⟨?_, ?_, ?_, ?_, ?_⟩
  · intro volumes hlen havg
    simp only [checkVolumeQuality]
    split_ifs with h1 h2 h3 h4 h5
    · omega
    · norm_num
    · norm_num
    · norm_num
    · norm_num
    · exact absurd (not_le.mp h5) h2
  · simp [checkVolumeQuality, c8Volumes, avgVol20, volumeMinRatio]
    norm_num
  · simp [checkVolumeQuality, c8Volumes, avgVol20, volumeMinRatio,
      volumeSpikeMultiplier]
    norm_num
  · simp [checkVolumeQuality, c8Volumes, avgVol20, volumeMinRatio,
      volumeSpikeMultiplier, volumeMultiplier]
    norm_num
  · simp [checkVolumeQuality, c8Volumes, avgVol20, volumeMinRatio,
      volumeSpikeMultiplier, volumeMultiplier]
    norm_num

/-- C8 witness: the range part of the amended theorem applied to a concrete
volume series. -/
theorem c8Witness :
    (checkVolumeQuality (c8Volumes 1)).2 = -10 ∨
      (checkVolumeQuality (c8Volumes 1)).2 = 8 ∨
      (checkVolumeQuality (c8Volumes 1)).2 = 5 ∨
      (checkVolumeQuality (c8Volumes 1)).2 = 0 :=
  c8AdjustmentRanges.1 (c8Volumes 1) (by simp [c8Volumes])
    (by simp [c8Volumes, avgVol20]; norm_num)

/-- The exit check never changes which symbol a position carries. -/
theorem checkOnePosition_symbol (pos : TrackedPosition) (price : ℚ)
    (expired : Bool) :
    (checkOnePosition pos price expired).1.symbol = pos.symbol := by
  simp only [checkOnePosition, closePosition, takeProfit1Hit]
  split_ifs <;> rfl

/-- A non-expired Long position whose stop loss, TP1 and TP2 are all
unbreached is left untouched by the exit check. -/
theorem checkOne_long_noexit (pos : TrackedPosition) (p : ℚ)
    (hdir : pos.direction = "LONG") (hsl : ¬ p ≤ pos.stop_loss)
    (htp1 : ¬ pos.take_profit_1 ≤ p) (htp2 : ¬ pos.take_profit_2 ≤ p) :
    checkOnePosition pos p false = (pos, none) := by
  simp only [checkOnePosition]
  rw [if_neg (fun h => hsl h.2), if_neg (fun h => by simp [hdir] at h),
    if_neg (fun h => htp1 h.2.2), if_neg (fun h => by simp [hdir] at h),
    if_neg (fun h => htp2 h.2), if_neg (fun h => by simp [hdir] at h),
    if_neg (by simp)]

/-- An open Long position at or above TP1 with the stop loss unbreached takes
the partial profit. -/
theorem checkOne_long_tp1 (pos : TrackedPosition) (p : ℚ)
    (hdir : pos.direction = "LONG") (hopen : pos.status = .OPEN)
    (hsl : ¬ p ≤ pos.stop_loss) (htp1 : pos.take_profit_1 ≤ p) :
    checkOnePosition pos p false
      = ((takeProfit1Hit pos p (calc_pnl_pct pos p)).1,
         some (takeProfit1Hit pos p (calc_pnl_pct pos p)).2) := by
  simp only [checkOnePosition]
  rw [if_neg (fun h => hsl h.2), if_neg (fun h => by simp [hdir] at h),
    if_pos ⟨hopen, hdir, htp1⟩]

/-- A no-longer-open Long position at or above TP2 with the (relocated) stop
loss unbreached closes with reason TakeProfit2. -/
theorem checkOne_long_tp2 (pos : TrackedPosition) (p : ℚ)
    (hdir : pos.direction = "LONG") (hopen : pos.status ≠ .OPEN)
    (hsl : ¬ p ≤ pos.stop_loss) (htp2 : pos.take_profit_2 ≤ p) :
    checkOnePosition pos p false
      = ((closePosition pos .TAKE_PROFIT_2 p (calc_pnl_pct pos p)).1,
         some (closePosition pos .TAKE_PROFIT_2 p (calc_pnl_pct pos p)).2) := by
  simp only [checkOnePosition]
  rw [if_neg (fun h => hsl h.2), if_neg (fun h => by simp [hdir] at h),
    if_neg (fun h => hopen h.1), if_neg (fun h => by simp [hdir] at h),
    if_pos ⟨hdir, htp2⟩]

/-- Each position contributes at most one alert per update pass. -/
theorem checkExitsList_alerts_len (pg : String → Option ℚ)
    (ex : String → Bool) (ps : List (String × TrackedPosition)) :
    (checkExitsList pg ex ps).2.2.length ≤ ps.length := by
  induction ps with
  | nil => simp [checkExitsList]
  | cons e rest ih =>
    obtain ⟨sym, pos⟩ := e
    simp only [checkExitsList]
    split_ifs with h
    · simpa using Nat.le_succ_of_le ih
    · cases hpg : pg sym with
      | none => simpa using Nat.le_succ_of_le ih
      | some p =>
        simp only [List.length_append, List.length_cons]
        have : (checkOnePosition pos p (ex sym)).2.toList.length ≤ 1 := by
          cases (checkOnePosition pos p (ex sym)).2 <;> simp
        omega

/-- C2: a price at or beyond the stop loss always closes the position with
reason StopLoss — the stop-loss rule is checked first, so this holds even when
the same price also breaches TP1, TP2 or the time limit — and a single update
pass produces at most one exit event per tracked position. -/
theorem c2StopLossPrecedence :
    (∀ (pos : TrackedPosition) (price : ℚ) (expired : Bool),
      (pos.direction = "LONG" ∧ price ≤ pos.stop_loss) ∨
        (pos.direction = "SHORT" ∧ pos.stop_loss ≤ price) →
      (checkOnePosition pos price expired).2
          = some { position := (checkOnePosition pos price expired).1,
                   reason := .STOP_LOSS, current_price := price,
                   pnl_pct := calc_pnl_pct pos price } ∧
      (checkOnePosition pos price expired).1.status = .CLOSED ∧
      (checkOnePosition pos price expired).1.exit_reason = some .STOP_LOSS) ∧
    (∀ (st : ExitTrackerState) (pg : String → Option ℚ) (ex : String → Bool),
      (check_exits st pg ex).2.length ≤ st.positions.length) := by
  constructor
  · intro pos price expired h
    rcases h with ⟨hdir, hsl⟩ | ⟨hdir, hsl⟩
    · simp only [checkOnePosition]
      rw [if_pos ⟨hdir, hsl⟩]
      exact ⟨rfl, rfl, rfl⟩
    · simp only [checkOnePosition]
      rw [if_neg (fun hc => by simp [hdir] at hc), if_pos ⟨hdir, hsl⟩]
      exact ⟨rfl, rfl, rfl⟩
  · intro st pg ex
    simpa [check_exits] using checkExitsList_alerts_len pg ex st.positions

/-- C2 witness: the Long position of `c2SamplePos` at price 85, which breaches
the stop loss, TP1 and TP2 at once while also being expired, still closes with
reason StopLoss. -/
theorem c2Witness :
    (checkOnePosition c2SamplePos 85 true).2
        = some { position := (checkOnePosition c2SamplePos 85 true).1,
                 reason := .STOP_LOSS, current_price := 85,
                 pnl_pct := calc_pnl_pct c2SamplePos 85 } ∧
    (checkOnePosition c2SamplePos 85 true).1.status = .CLOSED ∧
    (checkOnePosition c2SamplePos 85 true).1.exit_reason = some .STOP_LOSS :=
  c2StopLossPrecedence.1 c2SamplePos 85 true (Or.inl ⟨rfl, by decide⟩)

/-- C3: for a Long position with stop loss below entry, TP1 = entry + 1.5·ATR
and TP2 = entry + 3·ATR, the price sequence [entry, entry + 1.5·ATR,
entry + 3·ATR] (one price per update pass) produces exactly two events in
order: first a PartialTaken (TakeProfit1) event, after which the stop loss
equals the entry price and the position is still in the live set with status
TP1_HIT, then a terminal Closed (TakeProfit2) event. -/
theorem c3TakeProfitLadder (e a sl : ℚ) (ha : 0 < a) (hsl : sl < e) :
    (c3Step1 e a sl).2 = [] ∧
    (c3Step1 e a sl).1 = c3State0 e a sl ∧
    (c3Step2 e a sl).2.map ExitAlert.reason = [.TAKE_PROFIT_1] ∧
    (c3Step2 e a sl).1.positions
        = [("X", { c3Position e a sl with status := .TP1_HIT, stop_loss := e })] ∧
    open_positions (c3Step2 e a sl).1
        = [{ c3Position e a sl with status := .TP1_HIT, stop_loss := e }] ∧
    (c3Step3 e a sl).2.map ExitAlert.reason = [.TAKE_PROFIT_2] ∧
    (c3Step3 e a sl).1.positions.map (fun x => x.2.status) = [.CLOSED] := by
  have h15 : 0 < a * tp1Multiplier := mul_pos ha (by norm_num [tp1Multiplier])
  have h30 : 0 < a * tp2Multiplier := mul_pos ha (by norm_num [tp2Multiplier])
  have hst : (c3Position e a sl).status = .OPEN := rfl
  have hentry : (c3Position e a sl).entry_price = e := rfl
  have h1 : checkOnePosition (c3Position e a sl) e false = (c3Position e a sl, none) :=
    checkOne_long_noexit _ _ rfl (not_le.mpr hsl)
      (by simp only [c3Position]; linarith)
      (by simp only [c3Position]; linarith)
  have s1 : c3Step1 e a sl = (c3State0 e a sl, []) := by
    unfold c3Step1
    simp [check_exits, checkExitsList, c3State0, hst, h1]
  have h2 : checkOnePosition (c3Position e a sl) (e + a * tp1Multiplier) false
      = ((takeProfit1Hit (c3Position e a sl) (e + a * tp1Multiplier)
            (calc_pnl_pct (c3Position e a sl) (e + a * tp1Multiplier))).1,
         some (takeProfit1Hit (c3Position e a sl) (e + a * tp1Multiplier)
            (calc_pnl_pct (c3Position e a sl) (e + a * tp1Multiplier))).2) :=
    checkOne_long_tp1 _ _ rfl rfl
      (by simp only [c3Position]; push_neg; linarith)
      (le_of_eq rfl)
  have s2 : c3Step2 e a sl
      = ({ positions :=
             [("X", { c3Position e a sl with status := .TP1_HIT, stop_loss := e })],
           history := [] },
         [{ position := { c3Position e a sl with status := .TP1_HIT, stop_loss := e },
            reason := .TAKE_PROFIT_1,
            current_price := e + a * tp1Multiplier,
            pnl_pct := calc_pnl_pct (c3Position e a sl) (e + a * tp1Multiplier) }]) := by
    unfold c3Step2
    rw [s1]
    simp [check_exits, checkExitsList, c3State0, hst, h2, takeProfit1Hit, hentry]
  have hpos2st :
      ({ c3Position e a sl with status := .TP1_HIT, stop_loss := e } :
        TrackedPosition).status = .TP1_HIT := rfl
  have h3 : checkOnePosition
        ({ c3Position e a sl with status := .TP1_HIT, stop_loss := e })
        (e + a * tp2Multiplier) false
      = ((closePosition ({ c3Position e a sl with status := .TP1_HIT, stop_loss := e })
            .TAKE_PROFIT_2 (e + a * tp2Multiplier)
            (calc_pnl_pct ({ c3Position e a sl with status := .TP1_HIT, stop_loss := e })
              (e + a * tp2Multiplier))).1,
         some (closePosition ({ c3Position e a sl with status := .TP1_HIT, stop_loss := e })
            .TAKE_PROFIT_2 (e + a * tp2Multiplier)
            (calc_pnl_pct ({ c3Position e a sl with status := .TP1_HIT, stop_loss := e })
              (e + a * tp2Multiplier))).2) :=
    checkOne_long_tp2 _ _ rfl (by simp)
      (by simp only [c3Position]; push_neg; linarith)
      (le_of_eq rfl)
  refine ⟨by rw [s1], by rw [s1], by rw [s2]; rfl, by rw [s2], ?_, ?_, ?_⟩
  · rw [s2]
    simp [open_positions]
  · unfold c3Step3
    rw [s2]
    simp [check_exits, checkExitsList, hpos2st, h3, closePosition]
  · unfold c3Step3
    rw [s2]
    simp [check_exits, checkExitsList, hpos2st, h3, closePosition]

/-- C3 witness: the ladder at entry 100, ATR 2, stop loss 97. -/
theorem c3Witness :
    (c3Step1 100 2 97).2 = [] ∧
    (c3Step1 100 2 97).1 = c3State0 100 2 97 ∧
    (c3Step2 100 2 97).2.map ExitAlert.reason = [.TAKE_PROFIT_1] ∧
    (c3Step2 100 2 97).1.positions
        = [("X", { c3Position 100 2 97 with status := .TP1_HIT, stop_loss := 100 })] ∧
    open_positions (c3Step2 100 2 97).1
        = [{ c3Position 100 2 97 with status := .TP1_HIT, stop_loss := 100 }] ∧
    (c3Step3 100 2 97).2.map ExitAlert.reason = [.TAKE_PROFIT_2] ∧
    (c3Step3 100 2 97).1.positions.map (fun x => x.2.status) = [.CLOSED] :=
  c3TakeProfitLadder 100 2 97 (by norm_num) (by norm_num)

/-- A successful lookup means the key is present. -/
theorem lookupPosition_isSome_mem (ps : List (String × TrackedPosition))
    (sym : String) (old : TrackedPosition)
    (h : lookupPosition ps sym = some old) : sym ∈ ps.map Prod.fst := by
  cases hf : ps.find? (fun e => decide (e.1 = sym)) with
  | none => simp [lookupPosition, hf] at h
  | some e =>
    have h1 := List.find?_some hf
    have h2 := List.mem_of_find?_eq_some hf
    simp only [decide_eq_true_eq] at h1
    exact h1 ▸ List.mem_map_of_mem Prod.fst h2

/-- A failed lookup means the key is absent. -/
theorem lookupPosition_eq_none (ps : List (String × TrackedPosition))
    (sym : String) (h : lookupPosition ps sym = none) :
    sym ∉ ps.map Prod.fst := by
  have hf : ps.find? (fun e => decide (e.1 = sym)) = none := by
    cases hf : ps.find? (fun e => decide (e.1 = sym)) with
    | none => rfl
    | some e => simp [lookupPosition, hf] at h
  rw [List.find?_eq_none] at hf
  intro hmem
  obtain ⟨e, he, hEq⟩ := List.mem_map.mp hmem
  exact hf e he (by simp [hEq])

/-- Upserting an already-present key leaves the key sequence unchanged. -/
theorem upsertPosition_keys (ps : List (String × TrackedPosition))
    (sym : String) (pos : TrackedPosition) (h : sym ∈ ps.map Prod.fst) :
    (upsertPosition ps sym pos).map Prod.fst = ps.map Prod.fst := by
  induction ps with
  | nil => simp at h
  | cons e rest ih =>
    simp only [upsertPosition]
    split_ifs with hk
    · simp [hk]
    · have : sym ∈ rest.map Prod.fst := by
        rcases List.mem_map.mp h with ⟨f, hf, hEq⟩
        rcases List.mem_cons.mp hf with rfl | hf'
        · exact absurd hEq hk
        · exact hEq ▸ List.mem_map_of_mem Prod.fst hf'
      simp [ih this]

/-- Upserting keeps every stored position filed under its own symbol. -/
theorem upsertPosition_symbols (ps : List (String × TrackedPosition))
    (sym : String) (pos : TrackedPosition)
    (hsy : ∀ e ∈ ps, (Prod.snd e).symbol = Prod.fst e) (hp : pos.symbol = sym) :
    ∀ e ∈ upsertPosition ps sym pos, (Prod.snd e).symbol = Prod.fst e := by
  induction ps with
  | nil =>
    intro e he
    simp only [upsertPosition, List.mem_singleton] at he
    simp [he, hp]
  | cons f rest ih =>
    intro e he
    simp only [upsertPosition] at he
    split_ifs at he with hk
    · rcases List.mem_cons.mp he with rfl | he'
      · simpa using hp
      · exact hsy e (List.mem_cons_of_mem f he')
    · rcases List.mem_cons.mp he with rfl | he'
      · exact hsy e (by simp)
      · exact ih (fun g hg => hsy g (List.mem_cons_of_mem f hg)) e he'

/-- Looking up the upserted key returns the new position. -/
theorem lookupPosition_upsert (ps : List (String × TrackedPosition))
    (sym : String) (pos : TrackedPosition) :
    lookupPosition (upsertPosition ps sym pos) sym = some pos := by
  induction ps with
  | nil => simp [upsertPosition, lookupPosition]
  | cons e rest ih =>
    simp only [upsertPosition]
    split_ifs with hk
    · simp [lookupPosition]
    · simpa [lookupPosition, List.find?, hk] using ih

/-- check_exits leaves the key sequence of the position map unchanged. -/
theorem checkExitsList_keys (pg : String → Option ℚ) (ex : String → Bool)
    (ps : List (String × TrackedPosition)) :
    (checkExitsList pg ex ps).1.map Prod.fst = ps.map Prod.fst := by
  induction ps with
  | nil => simp [checkExitsList]
  | cons e rest ih =>
    obtain ⟨sym, pos⟩ := e
    simp only [checkExitsList]
    split_ifs with h
    · simp [ih]
    · cases hpg : pg sym with
      | none => simp [ih]
      | some p => simp [ih]

/-- check_exits keeps every stored position filed under its own symbol. -/
theorem checkExitsList_symbols (pg : String → Option ℚ) (ex : String → Bool)
    (ps : List (String × TrackedPosition))
    (hsy : ∀ e ∈ ps, (Prod.snd e).symbol = Prod.fst e) :
    ∀ e ∈ (checkExitsList pg ex ps).1, (Prod.snd e).symbol = Prod.fst e := by
  induction ps with
  | nil => simp [checkExitsList]
  | cons f rest ih =>
    obtain ⟨sym, pos⟩ := f
    have hhead : pos.symbol = sym := hsy (sym, pos) (by simp)
    have htail := fun g hg => hsy g (List.mem_cons_of_mem (sym, pos) hg)
    intro e he
    simp only [checkExitsList] at he
    split_ifs at he with h
    · rcases List.mem_cons.mp he with rfl | he'
      · exact hhead
      · exact ih htail e he'
    · cases hpg : pg sym with
      | none =>
        rw [hpg] at he
        rcases List.mem_cons.mp he with rfl | he'
        · exact hhead
        · exact ih htail e he'
      | some p =>
        rw [hpg] at he
        rcases List.mem_cons.mp he with rfl | he'
        · simpa [checkOnePosition_symbol] using hhead
        · exact ih htail e he'

/-- Every position check_exits appends to history is closed. -/
theorem checkExitsList_hist_closed (pg : String → Option ℚ) (ex : String → Bool)
    (ps : List (String × TrackedPosition)) :
    ∀ p ∈ (checkExitsList pg ex ps).2.1, p.status = PositionStatus.CLOSED := by
  induction ps with
  | nil => simp [checkExitsList]
  | cons f rest ih =>
    obtain ⟨sym, pos⟩ := f
    intro p hp
    simp only [checkExitsList] at hp
    split_ifs at hp with h
    · exact ih p hp
    · cases hpg : pg sym with
      | none =>
        rw [hpg] at hp
        exact ih p hp
      | some price =>
        rw [hpg] at hp
        rcases List.mem_append.mp hp with hp' | hp'
        · split_ifs at hp' with hcl
          · rcases List.mem_singleton.mp hp' with rfl
            exact hcl
          · simp at hp'
        · exact ih p hp'

/-- The empty tracker is well formed. -/
theorem trackerWf_empty : TrackerWf emptyTracker := by
  refine ⟨by simp [emptyTracker], ?_, ?_⟩ <;> simp [emptyTracker]

/-- add_position preserves tracker well-formedness. -/
theorem trackerWf_add (st : ExitTrackerState) (pos : TrackedPosition)
    (h : TrackerWf st) : TrackerWf (add_position st pos) := by
  obtain ⟨hnd, hsy, hhist⟩ := h
  cases hl : lookupPosition st.positions pos.symbol with
  | none =>
    have hnm := lookupPosition_eq_none _ _ hl
    simp only [add_position, hl]
    refine ⟨?_, ?_, ?_⟩
    · rw [List.map_append]
      exact List.Nodup.append hnd (List.nodup_singleton _)
        (List.disjoint_singleton.mpr hnm)
    · intro e he
      rcases List.mem_append.mp he with he' | he'
      · exact hsy e he'
      · rcases List.mem_singleton.mp he' with rfl
        rfl
    · exact hhist
  | some old =>
    have hmem := lookupPosition_isSome_mem _ _ old hl
    simp only [add_position, hl]
    split_ifs with hcl
    · refine ⟨?_, ?_, ?_⟩
      · rw [upsertPosition_keys _ _ _ hmem]
        exact hnd
      · exact upsertPosition_symbols _ _ _ hsy rfl
      · intro p hp
        rcases List.mem_append.mp hp with hp' | hp'
        · exact hhist p hp'
        · rcases List.mem_singleton.mp hp' with rfl
          rfl
    · refine ⟨?_, ?_, ?_⟩
      · rw [upsertPosition_keys _ _ _ hmem]
        exact hnd
      · exact upsertPosition_symbols _ _ _ hsy rfl
      · exact hhist

/-- check_exits preserves tracker well-formedness. -/
theorem trackerWf_check (st : ExitTrackerState) (pg : String → Option ℚ)
    (ex : String → Bool) (h : TrackerWf st) :
    TrackerWf (check_exits st pg ex).1 := by
  obtain ⟨hnd, hsy, hhist⟩ := h
  refine ⟨?_, ?_, ?_⟩
  · simpa [check_exits, checkExitsList_keys] using hnd
  · intro e he
    simp only [check_exits] at he
    exact checkExitsList_symbols pg ex st.positions hsy e he
  · intro p hp
    simp only [check_exits] at hp
    rcases List.mem_append.mp hp with hp' | hp'
    · exact hhist p hp'
    · exact checkExitsList_hist_closed pg ex st.positions p hp'

/-- Every reachable tracker state is well formed. -/
theorem trackerWf_reachable (st : ExitTrackerState) (h : Reachable st) :
    TrackerWf st := by
  induction h with
  | init => exact trackerWf_empty
  | add st pos _ ih => exact trackerWf_add st pos ih
  | check st pg ex _ ih => exact trackerWf_check st pg ex ih

/-- In a map with unique keys where each position is filed under its own
symbol, at most one stored position can be non-closed with a given symbol. -/
theorem countLive_le_one (sym : String) :
    ∀ ps : List (String × TrackedPosition), (ps.map Prod.fst).Nodup →
      (∀ e ∈ ps, (Prod.snd e).symbol = Prod.fst e) →
      (ps.map Prod.snd).countP
          (fun p => decide (p.symbol = sym ∧ p.status ≠ PositionStatus.CLOSED)) ≤ 1 := by
  intro ps
  induction ps with
  | nil => simp
  | cons e rest ih =>
    intro hnd hsy
    obtain ⟨k, p⟩ := e
    simp only [List.map_cons, List.nodup_cons] at hnd
    have hk : p.symbol = k := hsy (k, p) (by simp)
    have htail := fun g hg => hsy g (List.mem_cons_of_mem (k, p) hg)
    rw [List.map_cons, List.countP_cons]
    by_cases hc : p.symbol = sym ∧ p.status ≠ PositionStatus.CLOSED
    · have h0 : (rest.map Prod.snd).countP
          (fun q => decide (q.symbol = sym ∧ q.status ≠ PositionStatus.CLOSED)) = 0 := by
        rw [List.countP_eq_zero]
        intro q hq
        obtain ⟨f, hf, rfl⟩ := List.mem_map.mp hq
        have hfs : f.2.symbol = f.1 := htail f hf
        simp only [decide_eq_true_eq, not_and]
        intro hqs _
        have hf1 : f.1 = k := by rw [← hfs, hqs, ← hc.1, hk]
        exact hnd.1 (hf1 ▸ List.mem_map_of_mem Prod.fst hf)
      rw [h0, if_pos (decide_eq_true hc)]
    · rw [if_neg (by simpa using hc)]
      simpa using ih hnd.2 htail

/-- A well-formed tracker holds at most one non-closed position per symbol. -/
theorem nonClosedCount_le_one (st : ExitTrackerState) (h : TrackerWf st)
    (sym : String) : nonClosedCount st sym ≤ 1 := by
  obtain ⟨hnd, hsy, hhist⟩ := h
  have hhist0 : st.history.countP
      (fun p => decide (p.symbol = sym ∧ p.status ≠ PositionStatus.CLOSED)) = 0 := by
    rw [List.countP_eq_zero]
    intro p hp
    simp only [decide_eq_true_eq, not_and, ne_eq, not_not]
    intro _
    exact hhist p hp
  have hpos := countLive_le_one sym st.positions hnd hsy
  simp only [nonClosedCount, List.countP_append]
  omega

/-- C4: every reachable tracker state has at most one non-closed tracked
position per instrument symbol; and add_position on a symbol that already has
a non-closed position first closes it with exit reason Manual, appending it to
history, before installing the new position under that symbol. -/
theorem c4AtMostOneLivePerSymbol :
    (∀ st : ExitTrackerState, Reachable st → ∀ sym, nonClosedCount st sym ≤ 1) ∧
    (∀ (st : ExitTrackerState) (pos old : TrackedPosition),
      lookupPosition st.positions pos.symbol = some old →
      old.status ≠ PositionStatus.CLOSED →
      (add_position st pos).history = st.history ++
        [{ old with status := PositionStatus.CLOSED, exit_reason := some ExitReason.MANUAL }] ∧
      lookupPosition (add_position st pos).positions pos.symbol = some pos) := by
  constructor
  · intro st hr sym
    exact nonClosedCount_le_one st (trackerWf_reachable st hr) sym
  · intro st pos old hl hcl
    simp only [add_position, hl]
    rw [if_pos hcl]
    exact ⟨rfl, lookupPosition_upsert st.positions pos.symbol pos⟩

/-- C4 witness: the invariant applied to a concrete reachable state. -/
theorem c4Witness :
    nonClosedCount (add_position emptyTracker c2SamplePos) "X" ≤ 1 :=
  c4AtMostOneLivePerSymbol.1 (add_position emptyTracker c2SamplePos)
    (Reachable.add emptyTracker c2SamplePos Reachable.init) "X"

/-- C7 (code evaluation at the failing input): for the strictly rising series
0..14 and length 14, the RSI is undefined (NaN) at each of the first 14
indices (warm-up), and at index 14 — the first warmed-up point, where the
Wilder average loss is zero — it is again undefined rather than 100: the
source replaces the zero average loss by NaN to guard the division and never
fills the result back in. -/
theorem c7RsiZeroLossUndefined :
    (rsi c7Series 14).take 14
        = [none, none, none, none, none, none, none, none, none, none, none,
           none, none, none] ∧
    (rsi c7Series 14).getD 14 (some 0) = none := by
  constructor <;>
    norm_num [rsi, c7Series, diffList, diffGo, ewmMean, ewmMeanGo, max_def]

/-- C9 counterexample: with span 2, the 2-bar smoothing window ending at index
3 of the series [100, 0, 0, 0] is [0, 0], whose max (and min) is 0, yet the
EMA value there is 100/27 — not strictly below the window max: early values
never fully leave a seed-free EMA, so no window-relative bound holds. -/
theorem c9Counterexample :
    (ema [100, 0, 0, 0] 2).getD 3 0 = 100 / 27 ∧
    ¬ (ema [100, 0, 0, 0] 2).getD 3 0 < max (0 : ℚ) 0 := by
  constructor <;> norm_num [ema, emaGo]

/-- The EMA recursion stays within any interval containing its seed and every
input consumed so far. -/
theorem emaGo_mem_bounds (alpha : ℚ) (h0 : 0 ≤ alpha) (h1 : alpha ≤ 1) :
    ∀ (xs : List ℚ) (m lo hi : ℚ) (j : ℕ), lo ≤ m → m ≤ hi → j < xs.length →
      (∀ v ∈ xs.take (j + 1), lo ≤ v ∧ v ≤ hi) →
      lo ≤ (emaGo alpha m xs).getD j 0 ∧ (emaGo alpha m xs).getD j 0 ≤ hi := by
  intro xs
  induction xs with
  | nil =>
    intro m lo hi j _ _ hj _
    simp at hj
  | cons x rest ih =>
    intro m lo hi j hlo hhi hj hmem
    have hx : lo ≤ x ∧ x ≤ hi := hmem x (by simp)
    have hlo' : lo ≤ (1 - alpha) * m + alpha * x := by
      nlinarith [mul_nonneg (sub_nonneg.mpr h1) (sub_nonneg.mpr hlo),
        mul_nonneg h0 (sub_nonneg.mpr hx.1)]
    have hhi' : (1 - alpha) * m + alpha * x ≤ hi := by
      nlinarith [mul_nonneg (sub_nonneg.mpr h1) (sub_nonneg.mpr hhi),
        mul_nonneg h0 (sub_nonneg.mpr hx.2)]
    cases j with
    | zero => simpa [emaGo] using ⟨hlo', hhi'⟩
    | succ j' =>
      have hj' : j' < rest.length := by simpa using hj
      have hmem' : ∀ v ∈ rest.take (j' + 1), lo ≤ v ∧ v ≤ hi := by
        intro v hv
        exact hmem v (by simp [hv])
      simpa [emaGo] using
        ih ((1 - alpha) * m + alpha * x) lo hi j' hlo' hhi' hj' hmem'

/-- C9 (amended): for length ≥ 1, every EMA value lies non-strictly between
any lower and any upper bound of the series values from the start of the
series through that index.  (The original claim — strict bounds relative to
the length-bar window — fails; see the counterexample.) -/
theorem c9AmendedPrefixBounds (series : List ℚ) (length : ℕ) (i : ℕ)
    (lo hi : ℚ) (hlen : 1 ≤ length) (hilen : i < series.length)
    (hmem : ∀ v ∈ series.take (i + 1), lo ≤ v ∧ v ≤ hi) :
    lo ≤ (ema series length).getD i 0 ∧ (ema series length).getD i 0 ≤ hi := by
  have halpha0 : 0 ≤ 2 / ((length : ℚ) + 1) := by positivity
  have halpha1 : 2 / ((length : ℚ) + 1) ≤ 1 := by
    rw [div_le_one (by positivity)]
    have h1 : (1 : ℚ) ≤ (length : ℚ) := by exact_mod_cast hlen
    linarith
  cases series with
  | nil => simp at hilen
  | cons x rest =>
    have hx : lo ≤ x ∧ x ≤ hi := hmem x (by simp)
    cases i with
    | zero => simpa [ema] using hx
    | succ j =>
      have hj : j < rest.length := by simpa using hilen
      have hmem' : ∀ v ∈ rest.take (j + 1), lo ≤ v ∧ v ≤ hi := fun v hv =>
        hmem v (by simp [hv])
      simpa [ema] using
        emaGo_mem_bounds _ halpha0 halpha1 rest x lo hi j hx.1 hx.2 hj hmem'

/-- C9 witness: the amended bound applied to the series [1, 3, 2] with
span 2 at index 2. -/
theorem c9Witness :
    1 ≤ (ema [1, 3, 2] 2).getD 2 0 ∧ (ema [1, 3, 2] 2).getD 2 0 ≤ 3 :=
  c9AmendedPrefixBounds [1, 3, 2] 2 2 1 3 (by norm_num) (by norm_num)
    (by decide)

/-- C1: every emitted Signal carries an integer score clamped to [0, 100], and
whenever the clamped score of a consensus falls below the acceptance
threshold, analyze_pair emits nothing for that instrument in that cycle. -/
theorem c1ScoreClampedAndThresholded :
    (∀ (d : PairData) (sig : Signal), analyze_pair d = some sig →
      0 ≤ sig.score ∧ sig.score ≤ 100 ∧ signalThreshold ≤ sig.score) ∧
    (∀ (d : PairData) (direction : Direction)
        (active_votes : List IndicatorResult),
      consensus d.primary_results = some (direction, active_votes) →
      finalScore d direction active_votes < signalThreshold →
      analyze_pair d = none) := by
  constructor
  · intro d sig h
    unfold analyze_pair at h
    split_ifs at h with hlen
    split at h
    next => simp at h
    next direction votes heq =>
      split_ifs at h with hbtc hth
      cases Option.some.inj h
      refine ⟨?_, ?_, ?_⟩
      · show (0 : ℤ) ≤ max 0 (min (pyTrunc (rawScore d direction votes)) 100)
        exact le_max_left _ _
      · show max 0 (min (pyTrunc (rawScore d direction votes)) 100) ≤ 100
        exact max_le (by norm_num) (min_le_right _ _)
      · show signalThreshold ≤ finalScore d direction votes
        exact not_lt.mp hth
  · intro d direction votes hcon hth
    unfold analyze_pair
    rw [hcon]
    by_cases hlen : d.primary_len < 50
    · rw [if_pos hlen]
    · rw [if_neg hlen]
      show (if btcBlocked d direction = true then none
          else if finalScore d direction votes < signalThreshold then none
          else some (mkSignal d direction votes)) = none
      by_cases hbtc : btcBlocked d direction = true
      · rw [if_pos hbtc]
      · rw [if_neg hbtc, if_pos hth]

/-- The sample cycle data produces a signal. -/
theorem sampleDataEmits : (analyze_pair sampleData).isSome = true := by
  have hl : sampleData.primary_len = 200 := rfl
  have hb : btcBlocked sampleData Direction.LONG = false := rfl
  have hcon : consensus sampleData.primary_results
      = some (Direction.LONG,
          [⟨Direction.LONG, 1⟩, ⟨Direction.LONG, 1⟩, ⟨Direction.LONG, 1⟩]) := rfl
  have hraw : rawScore sampleData Direction.LONG
      [⟨Direction.LONG, 1⟩, ⟨Direction.LONG, 1⟩, ⟨Direction.LONG, 1⟩] = 100 := by
    norm_num [rawScore, sampleData, checkVolumeQuality, confirmationFactor,
      extraAdjust]
  have hfs : finalScore sampleData Direction.LONG
      [⟨Direction.LONG, 1⟩, ⟨Direction.LONG, 1⟩, ⟨Direction.LONG, 1⟩] = 100 := by
    rw [finalScore, hraw]
    norm_num [pyTrunc]
  simp only [analyze_pair, hl, hcon, hb]
  rw [hfs]
  norm_num [signalThreshold]

/-- C1 witness: the clamp and threshold bounds at the sample cycle data. -/
theorem c1Witness :
    0 ≤ ((analyze_pair sampleData).get sampleDataEmits).score ∧
      ((analyze_pair sampleData).get sampleDataEmits).score ≤ 100 ∧
      signalThreshold ≤ ((analyze_pair sampleData).get sampleDataEmits).score :=
  c1ScoreClampedAndThresholded.1 sampleData _
    (Option.some_get sampleDataEmits).symm

/-- The risk/reward arithmetic of the Long branch of mkSignal. -/
theorem riskRewardCalcLong (p a : ℚ) (ha : 0 < a) :
    pyRound2 (if 0 < |p - (p - a * atrSlMultiplier)| then
        |p + a * tp2Multiplier - p| / |p - (p - a * atrSlMultiplier)| else 0)
      = 2 := by
  have hsl : 0 < a * atrSlMultiplier := mul_pos ha (by norm_num [atrSlMultiplier])
  have htp : 0 < a * tp2Multiplier := mul_pos ha (by norm_num [tp2Multiplier])
  rw [show p - (p - a * atrSlMultiplier) = a * atrSlMultiplier from by ring,
    show p + a * tp2Multiplier - p = a * tp2Multiplier from by ring,
    abs_of_pos hsl, abs_of_pos htp, if_pos hsl]
  rw [show a * tp2Multiplier / (a * atrSlMultiplier) = 2 from by
    rw [tp2Multiplier, atrSlMultiplier]
    field_simp]
  norm_num [pyRound2, roundHalfEven]

/-- The risk/reward arithmetic of the Short branch of mkSignal. -/
theorem riskRewardCalcShort (p a : ℚ) (ha : 0 < a) :
    pyRound2 (if 0 < |p - (p + a * atrSlMultiplier)| then
        |p - a * tp2Multiplier - p| / |p - (p + a * atrSlMultiplier)| else 0)
      = 2 := by
  have hsl : 0 < a * atrSlMultiplier := mul_pos ha (by norm_num [atrSlMultiplier])
  have htp : 0 < a * tp2Multiplier := mul_pos ha (by norm_num [tp2Multiplier])
  rw [show p - (p + a * atrSlMultiplier) = -(a * atrSlMultiplier) from by ring,
    show p - a * tp2Multiplier - p = -(a * tp2Multiplier) from by ring,
    abs_neg, abs_neg, abs_of_pos hsl, abs_of_pos htp, if_pos hsl]
  rw [show a * tp2Multiplier / (a * atrSlMultiplier) = 2 from by
    rw [tp2Multiplier, atrSlMultiplier]
    field_simp]
  norm_num [pyRound2, roundHalfEven]

/-- C10: for every emitted Signal, whenever the (fallback-resolved) ATR is
positive, the stored risk/reward ratio equals TP2_MULTIPLIER divided by
ATR_SL_MULTIPLIER, which is exactly 2: both the reward and the risk distance
scale the same ATR, so the ratio is independent of instrument, price and ATR
value. -/
theorem c10RiskRewardConstant :
    ∀ (d : PairData) (sig : Signal), analyze_pair d = some sig →
      0 < effectiveAtr d →
      sig.risk_reward = tp2Multiplier / atrSlMultiplier ∧
      tp2Multiplier / atrSlMultiplier = 2 := by
  have hval : tp2Multiplier / atrSlMultiplier = 2 := by
    norm_num [tp2Multiplier, atrSlMultiplier]
  intro d sig h hatr
  refine ⟨?_, hval⟩
  rw [hval]
  unfold analyze_pair at h
  split_ifs at h with hlen
  split at h
  next => simp at h
  next direction votes heq =>
    split_ifs at h with hbtc hth
    cases Option.some.inj h
    cases direction with
    | LONG =>
      simpa [mkSignal] using riskRewardCalcLong d.last_close (effectiveAtr d) hatr
    | SHORT =>
      simpa [mkSignal] using riskRewardCalcShort d.last_close (effectiveAtr d) hatr
    | NEUTRAL =>
      simpa [mkSignal] using riskRewardCalcShort d.last_close (effectiveAtr d) hatr

/-- C10 witness: the ratio at the sample cycle data (ATR = 2 > 0). -/
theorem c10Witness :
    ((analyze_pair sampleData).get sampleDataEmits).risk_reward
        = tp2Multiplier / atrSlMultiplier ∧
      tp2Multiplier / atrSlMultiplier = 2 :=
  c10RiskRewardConstant sampleData _ (Option.some_get sampleDataEmits).symm
    (by norm_num [effectiveAtr, sampleData])

end TradingBot
